import Mathlib

/-!
Verification of the ecosystem analyzer pipeline of the `ai_sam_insights`
module (ecosystem analyzer, duplicate analyzer, external path analyzer,
python scanner, commented code analyzer, finding store, scan lifecycle).

Each definition is a shallow embedding of the corresponding Python
function; findings are abstracted to the fields the embedded computations
actually read (for the scoring pipeline only the severity string of each
finding matters, so a findings list is a list of severity strings).
-/

namespace Insights

/-! ## Duplicate analyzer findings and summary
(`DuplicateAnalyzer` in analyzers/duplicate_analyzer.py).
A finding in one of the seven category lists is represented by its
severity string. -/

structure DupFindings where
  duplicate_models : List String
  duplicate_functions : List String
  duplicate_methods : List String
  duplicate_css_classes : List String
  duplicate_views : List String
  similar_models : List String
  renamed_components : List String
deriving Repr, DecidableEq

/-- The empty duplicate-findings collection. -/
def DupFindings.empty : DupFindings := ⟨[], [], [], [], [], [], []⟩

/-- Summary produced by `DuplicateAnalyzer._generate_summary`. -/
structure DupSummary where
  duplicate_models : Nat
  duplicate_functions : Nat
  duplicate_methods : Nat
  duplicate_css_classes : Nat
  duplicate_views : Nat
  similar_models : Nat
  renamed_components : Nat
  total_issues : Nat
  sev_error : Nat
  sev_warning : Nat
  sev_info : Nat
deriving Repr, DecidableEq

/-- All seven category lists, in the order `_generate_summary` iterates
them when counting severities. -/
def dupSeverityLists (f : DupFindings) : List String :=
  f.duplicate_models ++ f.duplicate_functions ++ f.duplicate_methods ++
  f.duplicate_css_classes ++ f.duplicate_views ++ f.similar_models ++
  f.renamed_components

/-- `DuplicateAnalyzer._generate_summary`: per-category counts, a
`total_issues` sum over six categories (`similar_models` is not summed),
and severity counts over all seven categories. -/
def generateDupSummary (f : DupFindings) : DupSummary where
  duplicate_models := f.duplicate_models.length
  duplicate_functions := f.duplicate_functions.length
  duplicate_methods := f.duplicate_methods.length
  duplicate_css_classes := f.duplicate_css_classes.length
  duplicate_views := f.duplicate_views.length
  similar_models := f.similar_models.length
  renamed_components := f.renamed_components.length
  total_issues :=
    f.duplicate_models.length + f.duplicate_functions.length +
    f.duplicate_methods.length + f.duplicate_css_classes.length +
    f.duplicate_views.length + f.renamed_components.length
  sev_error := (dupSeverityLists f).count "error"
  sev_warning := (dupSeverityLists f).count "warning"
  sev_info := (dupSeverityLists f).count "info"

/-! ## Orphan analyzer findings and summary
(`OrphanAnalyzer._generate_summary` in analyzers/orphan_analyzer.py). -/

structure OrphanFindings where
  orphaned_python_files : List String
  orphaned_models : List String
  orphaned_views : List String
  orphaned_actions : List String
  orphaned_menus : List String
  dangling_field_refs : List String
  dangling_model_refs : List String
  orphaned_assets : List String
deriving Repr, DecidableEq

def OrphanFindings.empty : OrphanFindings := ⟨[], [], [], [], [], [], [], []⟩

/-- `OrphanAnalyzer._generate_summary` counts every item of every
category into `total_issues`. -/
def orphanSummaryTotalIssues (o : OrphanFindings) : Nat :=
  o.orphaned_python_files.length + o.orphaned_models.length +
  o.orphaned_views.length + o.orphaned_actions.length +
  o.orphaned_menus.length + o.dangling_field_refs.length +
  o.dangling_model_refs.length + o.orphaned_assets.length

/-! ## Commented code analyzer findings
(`CommentedCodeAnalyzer` in analyzers/commented_code_analyzer.py);
three per-file-type lists of findings, abstracted to severities. -/

structure CCFindings where
  python : List String
  javascript : List String
  xml : List String
deriving Repr, DecidableEq

def CCFindings.empty : CCFindings := ⟨[], [], []⟩

/-! ## External path analyzer findings
(`ExternalPathAnalyzer` in analyzers/external_path_analyzer.py);
four category lists of findings, abstracted to severities. -/

structure ExtFindings where
  hardcoded_external_paths : List String
  relative_path_escapes : List String
  suspicious_file_operations : List String
  external_imports : List String
deriving Repr, DecidableEq

def ExtFindings.empty : ExtFindings := ⟨[], [], [], []⟩

/-! ## Issue categorization and health score
(`EcosystemAnalyzer._categorize_issues` and
`EcosystemAnalyzer._calculate_health_score` in
analyzers/ecosystem_analyzer.py). -/

/-- The six duplicate categories `_categorize_issues` iterates, in
source order (`similar_models` is not among them). -/
def dupIssueLists (f : DupFindings) : List String :=
  f.duplicate_models ++ f.duplicate_functions ++ f.duplicate_methods ++
  f.duplicate_css_classes ++ f.duplicate_views ++ f.renamed_components

/-- The eight orphan categories `_categorize_issues` iterates, in
source order. -/
def orphanIssueLists (o : OrphanFindings) : List String :=
  o.orphaned_python_files ++ o.orphaned_models ++ o.orphaned_views ++
  o.orphaned_actions ++ o.orphaned_menus ++ o.dangling_field_refs ++
  o.dangling_model_refs ++ o.orphaned_assets

/-- The three commented-code file types `_categorize_issues` iterates. -/
def ccIssueLists (c : CCFindings) : List String :=
  c.python ++ c.javascript ++ c.xml

/-- The four external path categories `_categorize_issues` iterates. -/
def extIssueLists (e : ExtFindings) : List String :=
  e.hardcoded_external_paths ++ e.relative_path_escapes ++
  e.suspicious_file_operations ++ e.external_imports

/-- `report.critical_issues` built by `_categorize_issues`: duplicate,
orphan and commented-code findings with severity `error`, plus external
path findings with severity `critical`. -/
def criticalIssues (d : DupFindings) (o : OrphanFindings) (c : CCFindings)
    (e : ExtFindings) : List String :=
  (dupIssueLists d).filter (· == "error") ++
  (orphanIssueLists o).filter (· == "error") ++
  (ccIssueLists c).filter (· == "error") ++
  (extIssueLists e).filter (· == "critical")

/-- `report.warnings` built by `_categorize_issues`: duplicate, orphan
and commented-code findings with severity `warning`, plus every external
path finding whose severity is not `critical`. -/
def warningIssues (d : DupFindings) (o : OrphanFindings) (c : CCFindings)
    (e : ExtFindings) : List String :=
  (dupIssueLists d).filter (· == "warning") ++
  (orphanIssueLists o).filter (· == "warning") ++
  (ccIssueLists c).filter (· == "warning") ++
  (extIssueLists e).filter (· != "critical")

/-- Python `int()` conversion: truncation toward zero. -/
def pyInt (q : ℚ) : ℤ := if q < 0 then -(⌊-q⌋) else ⌊q⌋

/-- `EcosystemAnalyzer._calculate_health_score`.  Start at 100; subtract
10 per critical issue, 2 per warning, 0.5 per duplicate summary issue,
0.3 per orphan summary issue, the fixed external path penalties
(15 / 10 / 8 / 5), and 2 per python or xml scan error; truncate with
`int()` and clamp to [0, 100].  The float weights 0.5 and 0.3 are
modelled as exact rationals; on every input considered in the theorems
below the float computation is exact, so the models agree there. -/
def calculateHealthScore (d : DupFindings) (o : OrphanFindings)
    (c : CCFindings) (e : ExtFindings) (pyErrors xmlErrors : Nat) : ℤ :=
  let score : ℚ :=
    100 - 10 * ((criticalIssues d o c e).length : ℚ)
        - 2 * ((warningIssues d o c e).length : ℚ)
        - ((generateDupSummary d).total_issues : ℚ) * (1 / 2)
        - ((orphanSummaryTotalIssues o) : ℚ) * (3 / 10)
        - 15 * (e.hardcoded_external_paths.length : ℚ)
        - 10 * (e.relative_path_escapes.length : ℚ)
        - 8 * (e.suspicious_file_operations.length : ℚ)
        - 5 * (e.external_imports.length : ℚ)
        - 2 * (pyErrors : ℚ) - 2 * (xmlErrors : ℚ)
  max 0 (min 100 (pyInt score))

/-! ## Finding store
(`InsightsFinding.find_or_create` in models/insights_finding.py).
Records are the fields the upsert reads or writes; datetimes are
abstracted to natural numbers.  The store is the list of persisted
finding records (the `fingerprint` SQL unique constraint makes the
fingerprint a key). -/

structure StoredFinding where
  fingerprint : String
  scan_id : Nat
  first_seen_scan_id : Nat
  first_seen_date : Nat
  last_seen_date : Nat
  occurrence_count : Nat
  status : String
  severity : String
  description : String
deriving Repr, DecidableEq

/-- The `vals` dict passed to `find_or_create`, restricted to the keys
the upsert branches on.  `none` models a key that is absent or falsy
(Python `vals.get(...)` truthiness). -/
structure FindingVals where
  fingerprint : String
  severity : Option String
  description : Option String
deriving Repr, DecidableEq

/-- The update branch of `find_or_create`: always advance `scan_id`,
`last_seen_date` and `occurrence_count`; overwrite `severity` and
`description` from `vals` only while the stored status is still
`new` (and only for keys present in `vals`). -/
def updateExisting (f : StoredFinding) (scanId now : Nat)
    (vals : FindingVals) : StoredFinding :=
  let base := { f with scan_id := scanId, last_seen_date := now,
                       occurrence_count := f.occurrence_count + 1 }
  if f.status = "new" then
    let withSev := match vals.severity with
      | some s => { base with severity := s }
      | none => base
    match vals.description with
    | some d => { withSev with description := d }
    | none => withSev
  else base

/-- `InsightsFinding.find_or_create`: look up the candidate fingerprint;
update the existing record if found, otherwise create a fresh record
with `first_seen_date = last_seen_date = now`, `occurrence_count = 1`
and `status = new`.  Returns the affected record and the updated
store. -/
def find_or_create (store : List StoredFinding) (scanId now : Nat)
    (vals : FindingVals) : StoredFinding × List StoredFinding :=
  match store.find? (fun f => f.fingerprint == vals.fingerprint) with
  | some f =>
      let updated := updateExisting f scanId now vals
      (updated,
       store.map (fun g => if g.fingerprint == vals.fingerprint then updated else g))
  | none =>
      let created : StoredFinding :=
        { fingerprint := vals.fingerprint, scan_id := scanId,
          first_seen_scan_id := scanId, first_seen_date := now,
          last_seen_date := now, occurrence_count := 1, status := "new",
          severity := vals.severity.getD "", description := vals.description.getD "" }
      (created, store ++ [created])

/-! ## Scan lifecycle
(`InsightsScan.action_run_scan` in models/insights_scan.py). -/

/-- A scan record, restricted to the fields the run guard and the run
writes touch. -/
structure ScanRecord where
  state : String
  health_score : Int
  error_message : Option String
deriving Repr, DecidableEq

/-- `InsightsScan.action_run_scan`.  The guard raises a `UserError`
for every state other than `draft` and `failed`, before any write;
otherwise the method first writes state `running` (clearing the error
message), runs the analysis, and finally writes `completed` with the
stored results or `failed` with the error payload.  `runOutcome`
stands for the analyzer call (its health score on success, the raised
message on error); the result is the sequence of persisted record
states, in write order. -/
def action_run_scan (scan : ScanRecord) (runOutcome : Except String Int) :
    Except String (List ScanRecord) :=
  if scan.state = "draft" ∨ scan.state = "failed" then
    let running : ScanRecord := { scan with state := "running", error_message := none }
    match runOutcome with
    | .ok score =>
        .ok [running, { running with state := "completed", health_score := score }]
    | .error e =>
        .ok [running, { running with state := "failed", error_message := some e }]
  else .error "Can only run scans in draft or failed state"

/-! ## Python scanner (`PythonScanner` in scanners/python_scanner.py). -/

/-- Character-list prefix test (`listStartsWith pat s` means `s` starts
with `pat`). -/
def listStartsWith : List Char → List Char → Bool
  | [], _ => true
  | _ :: _, [] => false
  | a :: as, b :: bs => a == b && listStartsWith as bs

/-- Character-list substring test. -/
def listHasSub (pat : List Char) : List Char → Bool
  | [] => listStartsWith pat []
  | c :: t => listStartsWith pat (c :: t) || listHasSub pat t

/-- Python `pat in s` on strings. -/
def strHasSub (s pat : String) : Bool := listHasSub pat.toList s.toList

/-- Lower-case a character list (`re.IGNORECASE` matching is modelled
by lower-casing both sides). -/
def lowerChars (l : List Char) : List Char := l.map Char.toLower

/-- Lexicographic order on character lists (Python string `<`). -/
def charListLt : List Char → List Char → Bool
  | [], [] => false
  | [], _ :: _ => true
  | _ :: _, [] => false
  | a :: as, b :: bs => decide (a < b) || (a == b && charListLt as bs)

/-- The module-filter step of `PythonScanner.scan`: when a filter is
set, a file passes exactly when the first segment of its path relative
to the scan root is one of the filter entries (the first segment is
`""` for an empty relative path, as in the source). -/
def passesModuleFilter (moduleFilter : List String) (relParts : List String) : Bool :=
  moduleFilter.isEmpty || moduleFilter.contains (relParts.headD "")

/-- Directory markers `PythonScanner.scan` skips by substring match on
the full path (`__pycache__`, `venv`, `.git`). -/
def scanSkipMarkers : List String := ["__pycache__", "venv", ".git"]

/-- Whether `PythonScanner.scan` scans a discovered `.py` file: it must
pass the module filter and its full path must contain none of the skip
markers. -/
def scannerIncludes (moduleFilter : List String) (relParts : List String)
    (fullPath : String) : Bool :=
  passesModuleFilter moduleFilter relParts &&
  !(scanSkipMarkers.any (fun m => strHasSub fullPath m))

/-- A model extracted by `OdooModelVisitor`, restricted to the fields
the analyzers under verification read. -/
structure ModelInfo where
  class_name : String
  name : Option String
  fields : List String
  relative_path : String
deriving Repr, DecidableEq

/-- A standalone function record extracted by the visitor. -/
structure FuncInfo where
  name : String
  class_name : Option String
  body_hash : String
deriving Repr, DecidableEq

/-- The IR one successfully parsed file contributes. -/
structure FileIR where
  models : List ModelInfo
  functions : List FuncInfo
  imports : List String
deriving Repr, DecidableEq

/-- The outcome of `ast.parse` plus the visitor on one file: the file
IR, or a syntax error message. -/
inductive ParseOutcome
  | ok (ir : FileIR)
  | syntaxError (msg : String)
deriving Repr, DecidableEq

/-- An input file, as seen by `PythonScanner._scan_file`. -/
structure PyFile where
  path : String
  parse : ParseOutcome
deriving Repr, DecidableEq

def PyFile.parsedOk (f : PyFile) : Bool :=
  match f.parse with
  | .ok _ => true
  | .syntaxError _ => false

def PyFile.irModels (f : PyFile) : List ModelInfo :=
  match f.parse with
  | .ok ir => ir.models
  | .syntaxError _ => []

def PyFile.irFunctions (f : PyFile) : List FuncInfo :=
  match f.parse with
  | .ok ir => ir.functions
  | .syntaxError _ => []

def PyFile.irImports (f : PyFile) : List String :=
  match f.parse with
  | .ok ir => ir.imports
  | .syntaxError _ => []

/-- The scanner result accumulator (`PythonScanner.scan_results`). -/
structure PyScanResults where
  models : List ModelInfo
  functions : List FuncInfo
  imports : List String
  files_scanned : Nat
  errors : List (String × String)
deriving Repr, DecidableEq

def emptyScanResults : PyScanResults := ⟨[], [], [], 0, []⟩

/-- `PythonScanner._scan_file`: on success append the file IR to the
accumulated results and count the file; on a syntax error append one
entry `(file, message)` to the errors list and keep everything else.
No outcome raises. -/
def scanFile (acc : PyScanResults) (f : PyFile) : PyScanResults :=
  match f.parse with
  | .ok ir =>
      { acc with models := acc.models ++ ir.models,
                 functions := acc.functions ++ ir.functions,
                 imports := acc.imports ++ ir.imports,
                 files_scanned := acc.files_scanned + 1 }
  | .syntaxError msg =>
      { acc with errors := acc.errors ++ [(f.path, "Syntax error: " ++ msg)] }

/-- The per-file loop of `PythonScanner.scan` over the selected files. -/
def pythonScan (files : List PyFile) : PyScanResults :=
  files.foldl scanFile emptyScanResults


/-! ## Similar model detection
(`DuplicateAnalyzer._find_similar_models` in
analyzers/duplicate_analyzer.py).  Thresholds 0.7 and 0.85 are modelled
as exact rationals. -/

/-- `model.get(chr 95 ++ "name") or model.get("class_name")` with Python
truthiness: an absent or empty `name` falls back to the class name. -/
def modelDisplayName (m : ModelInfo) : String :=
  match m.name with
  | some n => if n = "" then m.class_name else n
  | none => m.class_name

/-- One entry of `models_by_fields`: a display name and the set of
non-empty field names. -/
structure SimCandidate where
  name : String
  fields : Finset String
deriving DecidableEq

/-- The `models_by_fields` construction: skip unnamed models and models
with fewer than 3 named fields. -/
def simCandidates (models : List ModelInfo) : List SimCandidate :=
  models.filterMap (fun m =>
    let name := modelDisplayName m
    if name = "" then none
    else
      let fs : Finset String := (m.fields.filter (· ≠ "")).toFinset
      if fs.card < 3 then none
      else some ⟨name, fs⟩)

/-- Jaccard similarity of two attribute-name sets. -/
def jaccard (a b : Finset String) : ℚ :=
  ((a ∩ b).card : ℚ) / ((a ∪ b).card : ℚ)

/-- A similar-models finding (the stored similarity is kept exact here;
the source rounds it to one decimal of a percentage for display). -/
structure SimFinding where
  model1 : String
  model2 : String
  similarity : ℚ
  severity : String
deriving Repr, DecidableEq

/-- `tuple(sorted([name1, name2]))` (ascending, so swap when the second
name orders strictly below the first). -/
def pairKey (a b : String) : String × String :=
  if charListLt b.toList a.toList then (b, a) else (a, b)

/-- The body of the pairwise comparison: skip an empty union, flag at
similarity at least 0.7, escalate severity to `warning` at 0.85. -/
def evalSimPair (a b : SimCandidate) : Option SimFinding :=
  let inter := (a.fields ∩ b.fields).card
  let un := (a.fields ∪ b.fields).card
  if un = 0 then none
  else
    let sim : ℚ := (inter : ℚ) / (un : ℚ)
    if sim ≥ 7 / 10 then
      some { model1 := a.name, model2 := b.name, similarity := sim,
             severity := if sim < 17 / 20 then "info" else "warning" }
    else none

/-- The index pairs `(i, j)` with `i < j` of the nested loops, as the
corresponding candidate pairs in iteration order. -/
def pairsAfter : List SimCandidate → List (SimCandidate × SimCandidate)
  | [] => []
  | m :: rest => rest.map (fun n => (m, n)) ++ pairsAfter rest

/-- The loop over candidate pairs with the `compared` set of sorted
name pairs: a pair whose key was already seen is skipped before being
evaluated. -/
def processSimPairs :
    List (SimCandidate × SimCandidate) → List (String × String) → List SimFinding
  | [], _ => []
  | (a, b) :: rest, compared =>
      let key := pairKey a.name b.name
      if key ∈ compared then processSimPairs rest compared
      else
        match evalSimPair a b with
        | some f => f :: processSimPairs rest (key :: compared)
        | none => processSimPairs rest (key :: compared)

/-- `DuplicateAnalyzer._find_similar_models`. -/
def findSimilarModels (models : List ModelInfo) : List SimFinding :=
  processSimPairs (pairsAfter (simCandidates models)) []

/-! ## Rename detection
(`DuplicateAnalyzer._check_renames` and `RENAME_PATTERNS` in
analyzers/duplicate_analyzer.py).  Each regex of `RENAME_PATTERNS` is
one of: an end-anchored literal suffix, the end-anchored `_v` plus
digits pattern, a start-anchored literal, or an unanchored
literal; all matching is case-insensitive, as in the source
(`re.IGNORECASE`). -/

inductive RenamePat
  | sfx (s : String)
  | sfxVNum
  | pfx (s : String)
  | sub (s : String)
deriving Repr, DecidableEq

/-- `RENAME_PATTERNS`, in source order. -/
def renamePatterns : List RenamePat :=
  [.sfx "_old", .sfx "_backup", .sfx "_deprecated", .sfx "_legacy", .sfxVNum,
   .pfx "old_", .pfx "backup_", .pfx "deprecated_",
   .sfx "_copy", .sfx "_temp", .sfx "_test", .sub "Original", .sub "Copy"]


/-- The digits at the end of the name, for the `_v` plus digits
pattern. -/
def trailingDigits (name : String) : List Char :=
  name.toList.reverse.takeWhile Char.isDigit

/-- Whether the name ends in `_v` followed by at least one digit
(case-insensitively). -/
def sfxVNumMatches (name : String) : Bool :=
  let ds := trailingDigits name
  decide (ds ≠ []) &&
    (match name.toList.reverse.drop ds.length with
     | v :: u :: _ => (v == 'v' || v == 'V') && u == '_'
     | _ => false)

/-- `re.search(pattern, name, re.IGNORECASE)` for a rename pattern. -/
def patMatches (p : RenamePat) (name : String) : Bool :=
  match p with
  | .sfx s =>
      listStartsWith (lowerChars s.toList).reverse (lowerChars name.toList).reverse
  | .sfxVNum => sfxVNumMatches name
  | .pfx s => listStartsWith (lowerChars s.toList) (lowerChars name.toList)
  | .sub s => listHasSub (lowerChars s.toList) (lowerChars name.toList)

/-- Remove every (case-insensitive, non-overlapping, left-to-right)
occurrence of `pat`, as `re.sub(pat, "", name, flags=re.IGNORECASE)`
does for an unanchored literal pattern.  Structural recursion on a fuel
bound (the list length strictly decreases on each step, so fuel set to
the initial length never runs out). -/
def removeAllCIFuel (pat : List Char) : Nat → List Char → List Char
  | _, [] => []
  | 0, l => l
  | fuel + 1, c :: t =>
      if !pat.isEmpty &&
         listStartsWith (lowerChars pat) (lowerChars (c :: t)) then
        removeAllCIFuel pat fuel (t.drop (pat.length - 1))
      else c :: removeAllCIFuel pat fuel t

def removeAllCI (pat l : List Char) : List Char :=
  removeAllCIFuel pat l.length l

/-- `re.sub(pattern, "", name, flags=re.IGNORECASE)` for a rename
pattern (for the anchored patterns at most one occurrence exists, so
the substitution strips it). -/
def patStrip (p : RenamePat) (name : String) : String :=
  match p with
  | .sfx s =>
      if patMatches p name then
        String.mk (name.toList.take (name.toList.length - s.toList.length))
      else name
  | .sfxVNum =>
      if patMatches p name then
        String.mk
          (name.toList.take
            (name.toList.length - ((trailingDigits name).length + 2)))
      else name
  | .pfx s =>
      if patMatches p name then String.mk (name.toList.drop s.toList.length)
      else name
  | .sub s => String.mk (removeAllCI s.toList name.toList)

structure RenameFinding where
  ctype : String
  renamed : String
  original : Option String
  severity : String
deriving Repr, DecidableEq

/-- `DuplicateAnalyzer._check_renames`: per name, the first matching
rename pattern (if any) is stripped; when the stripped base name exists
among the given names a `warning` finding links the renamed component
to its original, otherwise an `info` finding with no original is
produced. -/
def checkRenames (names : List String) (ctype : String) : List RenameFinding :=
  names.foldr (fun name acc =>
    (if name = "" then []
     else
       match renamePatterns.find? (fun p => patMatches p name) with
       | none => []
       | some p =>
           let base := patStrip p name
           if names.contains base && base ≠ name then
             [{ ctype := ctype, renamed := name, original := some base,
                severity := "warning" }]
           else if base ≠ name then
             [{ ctype := ctype, renamed := name, original := none,
                severity := "info" }]
           else []) ++ acc) []

/-! ## Commented code findings
(`CommentedCodeAnalyzer._create_finding` in
analyzers/commented_code_analyzer.py).  The two regex families of the
analyzer (`DELETION_MARKERS` and `DELETION_MARKER_EXCLUSIONS`) enter as
match oracles `String → Bool`, so every theorem below holds for the
concrete regexes of the source. -/

structure CCFinding where
  file_path : String
  relative_path : String
  line_start : Nat
  line_end : Nat
  line_count : Nat
  code_type : String
  preview : String
  has_deletion_marker : Bool
  severity : String
  finding_type : String
deriving Repr, DecidableEq

/-- The preview built from the first three block lines. -/
def ccPreview (blockLines : List (Nat × String)) : String :=
  String.intercalate "\n" ((blockLines.take 3).map (fun l => l.2)) ++
  (if blockLines.length > 3 then
    "\n... (" ++ toString (blockLines.length - 3) ++ " more lines)"
  else "")

/-- `CommentedCodeAnalyzer._create_finding`.  A block of fewer than two
lines is dropped unless its text matches a deletion marker; otherwise a
finding is produced whose `has_deletion_marker` flag (and severity) is
computed from the full block text, with the functional-comment
exclusion list suppressing the marker flag.  All call sites pass a
non-empty `blockLines`. -/
def createFinding (matchesDeletionMarker matchesExclusion : String → Bool)
    (filePath relPath : String) (blockStart : Nat)
    (blockLines : List (Nat × String)) (codeType : String) : Option CCFinding :=
  if blockLines.length < 2 &&
     !(matchesDeletionMarker (blockLines.headD (0, "")).2) then none
  else
    let blockEnd := ((blockLines.getLast?).getD (0, "")).1
    let fullText := String.intercalate "\n" (blockLines.map (fun l => l.2))
    let isExcluded := matchesExclusion fullText
    let hasDeletion := if isExcluded then false else matchesDeletionMarker fullText
    some { file_path := filePath, relative_path := relPath,
           line_start := blockStart, line_end := blockEnd,
           line_count := blockLines.length, code_type := codeType,
           preview := ccPreview blockLines,
           has_deletion_marker := hasDeletion,
           severity := if hasDeletion then "warning" else "info",
           finding_type := "commented_" ++ codeType ++ "_code" }


/-- The models contributed by a list of input files (syntax-error files
contribute none). -/
def scanModelsOf (fs : List PyFile) : List ModelInfo :=
  fs.foldr (fun f r => f.irModels ++ r) []

/-- The standalone functions contributed by a list of input files. -/
def scanFunctionsOf (fs : List PyFile) : List FuncInfo :=
  fs.foldr (fun f r => f.irFunctions ++ r) []

/-- The imports contributed by a list of input files. -/
def scanImportsOf (fs : List PyFile) : List String :=
  fs.foldr (fun f r => f.irImports ++ r) []

/-! ## Concrete inputs used in the claim theorems and witnesses -/

def c4FailedScan : ScanRecord :=
  { state := "failed", health_score := 12, error_message := some "boom" }

def c2Stored : StoredFinding :=
  { fingerprint := "fp1", scan_id := 1, first_seen_scan_id := 1,
    first_seen_date := 10, last_seen_date := 20, occurrence_count := 3,
    status := "resolved", severity := "warning", description := "old text" }

def c2Vals : FindingVals :=
  { fingerprint := "fp1", severity := some "critical",
    description := some "fresh" }

def c3Stored : StoredFinding :=
  { fingerprint := "fp3", scan_id := 4, first_seen_scan_id := 1,
    first_seen_date := 11, last_seen_date := 21, occurrence_count := 7,
    status := "acknowledged", severity := "warning", description := "w" }

def c3Vals : FindingVals :=
  { fingerprint := "fp3", severity := some "warning", description := none }

def c3ValsNew : FindingVals :=
  { fingerprint := "fp9", severity := some "critical", description := none }

def c6Good1 : PyFile :=
  ⟨"a.py", .ok ⟨[⟨"A", some "model.a", ["x", "y"], "a.py"⟩], [], ["os"]⟩⟩

def c6Good2 : PyFile :=
  ⟨"c.py", .ok ⟨[⟨"C", some "model.c", ["z"], "c.py"⟩],
    [⟨"helper", none, "h1"⟩], []⟩⟩

def c7A : ModelInfo := ⟨"A", some "a", ["x", "y", "z", "w"], "a.py"⟩

def c7B : ModelInfo := ⟨"B", some "b", ["x", "y", "z"], "b.py"⟩

def c7C : ModelInfo := ⟨"C", some "c", ["p", "q", "r"], "c.py"⟩

/-! # Claim theorems -/

/-! ## C1: health score with a single hardcoded-external-path finding -/

/-- C1 (counterexample): a scan whose analysis produces exactly one
hardcoded-external-path finding (severity `critical`, as the analyzer
assigns to a `github-repos` match) and no other findings has health
score 75, not 85: `_categorize_issues` also counts the finding among
`critical_issues`, so the −15 category penalty stacks with the −10 per
critical issue. -/
theorem hardcoded_path_score_not_85 :
    calculateHealthScore DupFindings.empty OrphanFindings.empty CCFindings.empty
      { hardcoded_external_paths := ["critical"], relative_path_escapes := [],
        suspicious_file_operations := [], external_imports := [] } 0 0 = 75 ∧
    (75 : ℤ) ≠ 85 := by
  constructor
  · simp [calculateHealthScore, criticalIssues, warningIssues, dupIssueLists,
      orphanIssueLists, ccIssueLists, extIssueLists, generateDupSummary,
      orphanSummaryTotalIssues, DupFindings.empty, OrphanFindings.empty,
      CCFindings.empty]
    norm_num [pyInt]
  · decide

/-- C1 (amended): with exactly one hardcoded-external-path finding and
no other findings, the health score is 75 when the severity of the finding
is `critical` (−10 for the critical issue plus the −15 category
penalty) and 83 otherwise (the finding is bucketed as a warning: −2
plus −15); it is never 85. -/
theorem hardcoded_path_only_score (sev : String) :
    calculateHealthScore DupFindings.empty OrphanFindings.empty CCFindings.empty
      { hardcoded_external_paths := [sev], relative_path_escapes := [],
        suspicious_file_operations := [], external_imports := [] } 0 0 =
      if sev = "critical" then 75 else 83 := by
  by_cases h : sev = "critical"
  · subst h
    simp [calculateHealthScore, criticalIssues, warningIssues, dupIssueLists,
      orphanIssueLists, ccIssueLists, extIssueLists, generateDupSummary,
      orphanSummaryTotalIssues, DupFindings.empty, OrphanFindings.empty,
      CCFindings.empty]
    norm_num [pyInt]
  · have hb : (sev == "critical") = false := by
      simp [h]
    have hb2 : (sev != "critical") = true := by
      simp [bne, hb]
    simp [calculateHealthScore, criticalIssues, warningIssues, dupIssueLists,
      orphanIssueLists, ccIssueLists, extIssueLists, generateDupSummary,
      orphanSummaryTotalIssues, DupFindings.empty, OrphanFindings.empty,
      CCFindings.empty, h, hb, hb2]
    norm_num [pyInt]

/-! ## C10: similar models are excluded from `total_issues` -/

/-- C10: in the duplicate summary, `total_issues` is the sum of the six
counts for duplicate models / functions / methods / css classes / views
and renamed components; similar-model findings are excluded from it —
and hence from the 0.5-per-duplicate-issue health score deduction, whose
input the fourth conjunct shows to be unaffected by the
`similar_models` list — while their severities still enter the
severity counts of the summary (third conjunct). -/
theorem dup_summary_total_excludes_similar (f : DupFindings)
    (sm : List String) (o : OrphanFindings) (c : CCFindings)
    (e : ExtFindings) (pe xe : Nat) :
    (generateDupSummary f).total_issues =
      f.duplicate_models.length + f.duplicate_functions.length +
      f.duplicate_methods.length + f.duplicate_css_classes.length +
      f.duplicate_views.length + f.renamed_components.length ∧
    (generateDupSummary { f with similar_models := sm }).total_issues =
      (generateDupSummary f).total_issues ∧
    (generateDupSummary { f with similar_models := "info" :: sm }).sev_info =
      (generateDupSummary { f with similar_models := sm }).sev_info + 1 ∧
    calculateHealthScore { f with similar_models := sm } o c e pe xe =
      calculateHealthScore f o c e pe xe := by
  obtain ⟨l1, l2, l3, l4, l5, l6, l7⟩ := f
  refine ⟨rfl, rfl, ?_, rfl⟩
  simp [generateDupSummary, dupSeverityLists, List.count_append, List.count_cons]
  omega

/-! ## C4: scan lifecycle -/

/-- C4 (counterexample): a ScanRun in state `failed` is not immutable:
`action_run_scan` accepts it (its guard allows `draft` and `failed`),
writes state `running`, and on success completes it with new results —
refuting the claim that a failed ScanRun never changes again. -/
theorem failed_scan_rerun_changes_state :
    action_run_scan c4FailedScan (.ok 90) =
      .ok [{ state := "running", health_score := 12, error_message := none },
           { state := "completed", health_score := 90, error_message := none }] := by
  rfl

/-- C4 (amended): a ScanRun in state `completed` (or in the transient
`running` state) never changes through `action_run_scan`: the guard
raises `UserError` before any write; only `draft` and `failed` scans
can be (re-)run. -/
theorem completed_scan_guard (scan : ScanRecord) (outcome : Except String Int)
    (h : scan.state = "completed" ∨ scan.state = "running") :
    action_run_scan scan outcome =
      .error "Can only run scans in draft or failed state" := by
  rcases h with h | h <;> simp [action_run_scan, h]

/-- C4 witness: the guard fires on a concrete completed scan. -/
theorem completed_scan_guard_witness :
    action_run_scan { state := "completed", health_score := 90,
                      error_message := none } (.ok 50) =
      .error "Can only run scans in draft or failed state" :=
  completed_scan_guard
    { state := "completed", health_score := 90, error_message := none }
    (.ok 50) (Or.inl rfl)

/-! ## C2: triage state survives re-detection -/

/-- C2: when `find_or_create` hits an existing fingerprint it advances
`scan_id`, `last_seen_date` and `occurrence_count`, and never changes
`status` or `first_seen_date`; for a finding whose status is not `new`
(e.g. `resolved`) `severity` and `description` are left unchanged, and
they are overwritten exactly when the stored status is still `new` and
the corresponding key is present in `vals`. -/
theorem find_or_create_preserves_triage
    (store : List StoredFinding) (scanId now : Nat) (vals : FindingVals)
    (f : StoredFinding)
    (hfind : store.find? (fun g => g.fingerprint == vals.fingerprint) = some f) :
    ((find_or_create store scanId now vals).1.last_seen_date = now ∧
     (find_or_create store scanId now vals).1.occurrence_count =
       f.occurrence_count + 1 ∧
     (find_or_create store scanId now vals).1.scan_id = scanId ∧
     (find_or_create store scanId now vals).1.first_seen_date =
       f.first_seen_date ∧
     (find_or_create store scanId now vals).1.status = f.status) ∧
    (f.status ≠ "new" →
      (find_or_create store scanId now vals).1.severity = f.severity ∧
      (find_or_create store scanId now vals).1.description = f.description) ∧
    (f.status = "new" → ∀ sv, vals.severity = some sv →
      (find_or_create store scanId now vals).1.severity = sv) ∧
    (f.status = "new" → ∀ dsc, vals.description = some dsc →
      (find_or_create store scanId now vals).1.description = dsc) := by
  have hr : (find_or_create store scanId now vals).1 =
      updateExisting f scanId now vals := by
    simp [find_or_create, hfind]
  rw [hr]
  by_cases hs : f.status = "new" <;>
    cases hv : vals.severity <;> cases hd : vals.description <;>
      simp [updateExisting, hs, hv, hd]

/-- C2 witness: a `resolved` finding re-detected by scan 2 keeps its
status, severity and description while `occurrence_count` and
`last_seen_date` advance. -/
theorem find_or_create_preserves_triage_witness :
    (find_or_create [c2Stored] 2 100 c2Vals).1.status = "resolved" ∧
    (find_or_create [c2Stored] 2 100 c2Vals).1.severity = "warning" ∧
    (find_or_create [c2Stored] 2 100 c2Vals).1.description = "old text" ∧
    (find_or_create [c2Stored] 2 100 c2Vals).1.occurrence_count = 4 ∧
    (find_or_create [c2Stored] 2 100 c2Vals).1.last_seen_date = 100 := by
  have h := find_or_create_preserves_triage [c2Stored] 2 100 c2Vals c2Stored
    (by rfl)
  have hne : c2Stored.status ≠ "new" := by decide
  exact ⟨h.1.2.2.2.2, (h.2.1 hne).1, (h.2.1 hne).2, h.1.2.1, h.1.1⟩

/-! ## C3: creation defaults and the occurrence increment -/

/-- C3: when no stored finding carries the candidate fingerprint,
`find_or_create` creates the record with
`first_seen_date = last_seen_date = now`, `occurrence_count = 1` and
status `new`; when one exists, its `occurrence_count` is incremented by
exactly one per call. -/
theorem find_or_create_new_and_increment
    (store : List StoredFinding) (scanId now : Nat) (vals : FindingVals) :
    (store.find? (fun g => g.fingerprint == vals.fingerprint) = none →
      (find_or_create store scanId now vals).1.first_seen_date = now ∧
      (find_or_create store scanId now vals).1.last_seen_date = now ∧
      (find_or_create store scanId now vals).1.occurrence_count = 1 ∧
      (find_or_create store scanId now vals).1.status = "new" ∧
      (find_or_create store scanId now vals).1.fingerprint =
        vals.fingerprint) ∧
    (∀ f, store.find? (fun g => g.fingerprint == vals.fingerprint) = some f →
      (find_or_create store scanId now vals).1.occurrence_count =
        f.occurrence_count + 1) := by
  constructor
  · intro hnone
    simp [find_or_create, hnone]
  · intro f hf
    have hr : (find_or_create store scanId now vals).1 =
        updateExisting f scanId now vals := by
      simp [find_or_create, hf]
    rw [hr]
    by_cases hs : f.status = "new" <;>
      cases hv : vals.severity <;> cases hd : vals.description <;>
        simp [updateExisting, hs, hv, hd]

/-- C3 witness: creating against an empty store sets the defaults, and
re-detecting a stored finding with `occurrence_count = 7` yields 8. -/
theorem find_or_create_new_and_increment_witness :
    (find_or_create [] 1 50 c3ValsNew).1.occurrence_count = 1 ∧
    (find_or_create [] 1 50 c3ValsNew).1.status = "new" ∧
    (find_or_create [] 1 50 c3ValsNew).1.first_seen_date = 50 ∧
    (find_or_create [] 1 50 c3ValsNew).1.last_seen_date = 50 ∧
    (find_or_create [c3Stored] 5 60 c3Vals).1.occurrence_count = 8 := by
  have h1 := find_or_create_new_and_increment [] 1 50 c3ValsNew
  have h2 := find_or_create_new_and_increment [c3Stored] 5 60 c3Vals
  refine ⟨(h1.1 rfl).2.2.1, (h1.1 rfl).2.2.2.1, (h1.1 rfl).1,
    (h1.1 rfl).2.1, h2.2 c3Stored (by rfl)⟩

/-! ## C5: module filter exactness -/

/-- C5 (counterexample): scanning is not equivalent to the first path
segment matching the filter: a file under `ai_sam/__pycache__/` has
first segment `ai_sam`, which is in the filter `["ai_sam"]`, yet
`PythonScanner.scan` skips it through the `__pycache__` substring
check. -/
theorem module_filter_iff_fails :
    scannerIncludes ["ai_sam"] ["ai_sam", "__pycache__", "m.py"]
      "/repo/ai_sam/__pycache__/m.py" = false ∧
    (["ai_sam", "__pycache__", "m.py"].headD "") ∈ ["ai_sam"] :=
  ⟨by decide, by decide⟩

/-- C5 (amended): with a non-empty module filter, `PythonScanner.scan`
scans a discovered file iff the first segment of its relative path is
exactly equal to one of the filter names and its full path contains
none of the skip markers (`__pycache__`, `venv`, `.git`).  The
first-segment match is exact, never a substring match: filtering to
`["ai_sam"]` excludes every file whose first segment is `ai_sam_base`. -/
theorem scanner_inclusion_exact
    (moduleFilter relParts : List String) (fullPath : String)
    (hmf : moduleFilter ≠ []) :
    (scannerIncludes moduleFilter relParts fullPath = true ↔
      ((relParts.headD "") ∈ moduleFilter ∧
       ∀ m ∈ scanSkipMarkers, strHasSub fullPath m = false)) ∧
    (relParts.headD "" = "ai_sam_base" → moduleFilter = ["ai_sam"] →
      scannerIncludes moduleFilter relParts fullPath = false) := by
  constructor
  · simp [scannerIncludes, passesModuleFilter, List.isEmpty_iff, hmf]
  · intro h1 h2
    subst h2
    rw [List.headD_eq_head?] at h1
    simp [scannerIncludes, passesModuleFilter, h1]

/-- C5 witness: a file under `ai_sam` is scanned, one under
`ai_sam_base` is not. -/
theorem scanner_inclusion_exact_witness :
    scannerIncludes ["ai_sam"] ["ai_sam", "models", "x.py"]
      "/repo/ai_sam/models/x.py" = true ∧
    scannerIncludes ["ai_sam"] ["ai_sam_base", "models", "x.py"]
      "/repo/ai_sam_base/models/x.py" = false := by
  have h1 := scanner_inclusion_exact ["ai_sam"] ["ai_sam", "models", "x.py"]
    "/repo/ai_sam/models/x.py" (by decide)
  have h2 := scanner_inclusion_exact ["ai_sam"] ["ai_sam_base", "models", "x.py"]
    "/repo/ai_sam_base/models/x.py" (by decide)
  exact ⟨h1.1.mpr ⟨by decide, by decide⟩, h2.2 rfl rfl⟩

/-! ## C6: a syntax error in one file never contaminates the rest -/

/-- Folding `scanFile` over files that all parse appends their IR,
counts them, and adds no errors. -/
theorem foldl_scanFile_all_ok (fs : List PyFile) (acc : PyScanResults)
    (h : ∀ f ∈ fs, f.parsedOk = true) :
    fs.foldl scanFile acc =
      { models := acc.models ++ scanModelsOf fs,
        functions := acc.functions ++ scanFunctionsOf fs,
        imports := acc.imports ++ scanImportsOf fs,
        files_scanned := acc.files_scanned + fs.length,
        errors := acc.errors } := by
  induction fs generalizing acc with
  | nil => simp [scanModelsOf, scanFunctionsOf, scanImportsOf]
  | cons f t ih =>
    have hf : f.parsedOk = true := h f (by simp)
    have ht : ∀ g ∈ t, g.parsedOk = true := fun g hg => h g (by simp [hg])
    cases hp : f.parse with
    | ok ir =>
      simp only [List.foldl_cons, scanFile, hp]
      rw [ih _ ht]
      simp [scanModelsOf, scanFunctionsOf, scanImportsOf, PyFile.irModels,
        PyFile.irFunctions, PyFile.irImports, hp, List.append_assoc]
      omega
    | syntaxError msg =>
      exact absurd hf (by simp [PyFile.parsedOk, hp])

/-- C6: when exactly one input file has a syntax error, the scan result
still contains the IR (models, functions, imports) of every other file,
its errors list is exactly one entry naming the broken file and its
message, and the broken file is not counted as scanned.  `pythonScan`
is a total function, so no parse failure reaches the caller. -/
theorem syntax_error_isolated (pre post : List PyFile) (path msg : String)
    (hpre : ∀ f ∈ pre, f.parsedOk = true)
    (hpost : ∀ f ∈ post, f.parsedOk = true) :
    (pythonScan (pre ++ ⟨path, .syntaxError msg⟩ :: post)).errors =
      [(path, "Syntax error: " ++ msg)] ∧
    (pythonScan (pre ++ ⟨path, .syntaxError msg⟩ :: post)).models =
      scanModelsOf pre ++ scanModelsOf post ∧
    (pythonScan (pre ++ ⟨path, .syntaxError msg⟩ :: post)).functions =
      scanFunctionsOf pre ++ scanFunctionsOf post ∧
    (pythonScan (pre ++ ⟨path, .syntaxError msg⟩ :: post)).imports =
      scanImportsOf pre ++ scanImportsOf post ∧
    (pythonScan (pre ++ ⟨path, .syntaxError msg⟩ :: post)).files_scanned =
      pre.length + post.length := by
  unfold pythonScan
  rw [List.foldl_append, foldl_scanFile_all_ok pre emptyScanResults hpre,
    List.foldl_cons]
  simp only [scanFile]
  rw [foldl_scanFile_all_ok post _ hpost]
  simp [emptyScanResults]

/-- C6 witness: a three-file tree whose middle file has a syntax error
keeps the IR of the other two files and reports exactly one error entry. -/
theorem syntax_error_isolated_witness :
    (pythonScan [c6Good1, ⟨"b.py", .syntaxError "invalid syntax"⟩,
        c6Good2]).errors = [("b.py", "Syntax error: invalid syntax")] ∧
    (pythonScan [c6Good1, ⟨"b.py", .syntaxError "invalid syntax"⟩,
        c6Good2]).models = scanModelsOf [c6Good1] ++ scanModelsOf [c6Good2] ∧
    (pythonScan [c6Good1, ⟨"b.py", .syntaxError "invalid syntax"⟩,
        c6Good2]).files_scanned = 2 := by
  have h := syntax_error_isolated [c6Good1] [c6Good2] "b.py" "invalid syntax"
    (by decide) (by decide)
  exact ⟨h.1, h.2.1, h.2.2.2.2⟩

/-! ## C8: rename detection -/

/-- C8: on the name list `["Foo", "Foo_old"]` the rename detector
reports exactly one `renamed_component` finding — severity `warning`,
linking both components: `renamed = "Foo_old"`, `original = "Foo"` —
and on `["Bar_old"]` alone it reports exactly one finding with
severity `info` and `original = none`. -/
theorem rename_detection_examples :
    checkRenames ["Foo", "Foo_old"] "model" =
      [{ ctype := "model", renamed := "Foo_old", original := some "Foo",
         severity := "warning" }] ∧
    checkRenames ["Bar_old"] "model" =
      [{ ctype := "model", renamed := "Bar_old", original := none,
         severity := "info" }] :=
  ⟨by decide, by decide⟩

/-! ## C9: the short-block gate of the commented code detector -/

/-- C9: `_create_finding` drops an accumulated block of fewer than two
lines whose text matches no deletion marker; a single comment line
matching a deletion marker is always reported, and so is any block of
at least two lines.  Stated for every marker and exclusion oracle, so
in particular for the `DELETION_MARKERS` regexes of the source. -/
theorem commented_block_gate
    (markers exclusions : String → Bool) (fp rp : String) (bs : Nat)
    (bl : List (Nat × String)) (ct : String) :
    (bl.length < 2 → markers (bl.headD (0, "")).2 = false →
      createFinding markers exclusions fp rp bs bl ct = none) ∧
    (markers (bl.headD (0, "")).2 = true →
      (createFinding markers exclusions fp rp bs bl ct).isSome = true) ∧
    (2 ≤ bl.length →
      (createFinding markers exclusions fp rp bs bl ct).isSome = true) := by
  refine ⟨?_, ?_, ?_⟩
  · intro hlen hmk
    rw [List.headD_eq_head?] at hmk
    simp [createFinding, hlen, hmk]
  · intro hmk
    rw [List.headD_eq_head?] at hmk
    simp [createFinding, hmk]
  · intro hlen
    have hnot : ¬ (bl.length < 2) := by omega
    simp [createFinding, hnot]

/-- C9 witness: a one-line code-looking block with no deletion marker
is dropped; a one-line block that is a deletion marker is reported. -/
theorem commented_block_gate_witness :
    createFinding (fun s => s == "# DEPRECATED: old block")
      (fun _ => false) "f.py" "f.py" 5 [(5, "# y = 2")] "python" = none ∧
    (createFinding (fun s => s == "# DEPRECATED: old block")
      (fun _ => false) "f.py" "f.py" 9
      [(9, "# DEPRECATED: old block")] "python").isSome = true := by
  have h1 := commented_block_gate (fun s => s == "# DEPRECATED: old block")
    (fun _ => false) "f.py" "f.py" 5 [(5, "# y = 2")] "python"
  have h2 := commented_block_gate (fun s => s == "# DEPRECATED: old block")
    (fun _ => false) "f.py" "f.py" 9 [(9, "# DEPRECATED: old block")] "python"
  exact ⟨h1.1 (by decide) (by decide), h2.2.1 (by decide)⟩

/-! ## C7: similar-entity detection -/

/-- Jaccard similarity is symmetric. -/
theorem jaccard_comm (a b : Finset String) : jaccard a b = jaccard b a := by
  unfold jaccard
  rw [Finset.inter_comm, Finset.union_comm]

/-- A sorted name pair is one of the two component orders. -/
theorem pairKey_cases (a b : String) :
    pairKey a b = (a, b) ∨ pairKey a b = (b, a) := by
  unfold pairKey
  split
  · exact Or.inr rfl
  · exact Or.inl rfl

/-- What a successful pairwise evaluation produces. -/
theorem evalSimPair_spec {a b : SimCandidate} {f : SimFinding}
    (h : evalSimPair a b = some f) :
    f.model1 = a.name ∧ f.model2 = b.name ∧
    f.similarity = jaccard a.fields b.fields ∧
    7 / 10 ≤ f.similarity ∧
    f.severity = (if f.similarity < 17 / 20 then "info" else "warning") := by
  simp only [evalSimPair] at h
  split at h
  · exact Option.noConfusion h
  · split at h
    · next hge =>
        injection h with hf
        subst hf
        exact ⟨rfl, rfl, rfl, hge, rfl⟩
    · exact Option.noConfusion h

/-- A pair whose union is inhabited and whose similarity reaches the
threshold evaluates to a finding. -/
theorem evalSimPair_pos {a b : SimCandidate}
    (hu : (a.fields ∪ b.fields).card ≠ 0)
    (hs : 7 / 10 ≤ jaccard a.fields b.fields) :
    evalSimPair a b =
      some { model1 := a.name, model2 := b.name,
             similarity := jaccard a.fields b.fields,
             severity := if jaccard a.fields b.fields < 17 / 20 then "info"
                         else "warning" } := by
  unfold jaccard at hs
  simp only [evalSimPair]
  rw [if_neg hu, if_pos hs]
  simp only [jaccard]

/-- Every produced finding is the evaluation of some processed pair. -/
theorem processSimPairs_sound :
    ∀ (l : List (SimCandidate × SimCandidate))
      (compared : List (String × String)) (f : SimFinding),
      f ∈ processSimPairs l compared →
      ∃ p ∈ l, evalSimPair p.1 p.2 = some f := by
  intro l
  induction l with
  | nil =>
    intro compared f hf
    simp [processSimPairs] at hf
  | cons p rest ih =>
    intro compared f hf
    obtain ⟨a, b⟩ := p
    simp only [processSimPairs] at hf
    by_cases hk : pairKey a.name b.name ∈ compared
    · rw [if_pos hk] at hf
      obtain ⟨q, hq, he⟩ := ih compared f hf
      exact ⟨q, by simp [hq], he⟩
    · rw [if_neg hk] at hf
      cases he : evalSimPair a b with
      | some f0 =>
        simp only [he] at hf
        rcases List.mem_cons.mp hf with rfl | hf2
        · exact ⟨(a, b), by simp, he⟩
        · obtain ⟨q, hq, he2⟩ := ih _ f hf2
          exact ⟨q, by simp [hq], he2⟩
      | none =>
        simp only [he] at hf
        obtain ⟨q, hq, he2⟩ := ih _ f hf
        exact ⟨q, by simp [hq], he2⟩

/-- Both components of a generated pair come from the candidate list. -/
theorem pairsAfter_mem :
    ∀ {l : List SimCandidate} {a b : SimCandidate},
      (a, b) ∈ pairsAfter l → a ∈ l ∧ b ∈ l := by
  intro l
  induction l with
  | nil =>
    intro a b h
    simp [pairsAfter] at h
  | cons c t ih =>
    intro a b h
    simp only [pairsAfter, List.mem_append, List.mem_map] at h
    rcases h with ⟨n, hn, heq⟩ | h
    · injection heq with h1 h2
      subst h1
      subst h2
      exact ⟨by simp, by simp [hn]⟩
    · obtain ⟨ha, hb⟩ := ih h
      exact ⟨by simp [ha], by simp [hb]⟩

/-- Each unordered pair of distinct list members appears in at least
one of the two orders. -/
theorem pairsAfter_pair_or (l : List SimCandidate) (a b : SimCandidate)
    (ha : a ∈ l) (hb : b ∈ l) (hne : a ≠ b) :
    (a, b) ∈ pairsAfter l ∨ (b, a) ∈ pairsAfter l := by
  induction l with
  | nil => simp at ha
  | cons c t ih =>
    rcases List.mem_cons.mp ha with rfl | hat
    · have hbt : b ∈ t := by
        rcases List.mem_cons.mp hb with rfl | h
        · exact absurd rfl hne
        · exact h
      left
      simp only [pairsAfter, List.mem_append, List.mem_map]
      exact Or.inl ⟨b, hbt, rfl⟩
    · rcases List.mem_cons.mp hb with rfl | hbt
      · right
        simp only [pairsAfter, List.mem_append, List.mem_map]
        exact Or.inl ⟨a, hat, rfl⟩
      · rcases ih hat hbt with h | h
        · left
          simp only [pairsAfter, List.mem_append]
          exact Or.inr h
        · right
          simp only [pairsAfter, List.mem_append]
          exact Or.inr h

/-- Over a duplicate-free candidate list the generated pairs never
contain both orders of two distinct candidates. -/
theorem pairsAfter_not_symm :
    ∀ {l : List SimCandidate}, l.Nodup →
      ∀ {x y : SimCandidate}, (x, y) ∈ pairsAfter l → x ≠ y →
      (y, x) ∉ pairsAfter l := by
  intro l
  induction l with
  | nil =>
    intro _ x y hxy
    simp [pairsAfter] at hxy
  | cons c t ih =>
    intro hn x y hxy hne hyx
    have hcn : c ∉ t := (List.nodup_cons.mp hn).1
    have hnt : t.Nodup := (List.nodup_cons.mp hn).2
    simp only [pairsAfter, List.mem_append, List.mem_map] at hxy hyx
    rcases hxy with ⟨n, hnmem, heq⟩ | hxy
    · injection heq with h1 h2
      subst h1
      subst h2
      rcases hyx with ⟨m, hmmem, heq2⟩ | hyx
      · injection heq2 with h3 h4
        exact hcn (h3 ▸ hnmem)
      · exact hcn (pairsAfter_mem hyx).2
    · rcases hyx with ⟨m, hmmem, heq2⟩ | hyx
      · injection heq2 with h3 h4
        subst h3
        exact hcn (pairsAfter_mem hxy).2
      · exact ih hnt hxy hne hyx

/-- Every candidate kept by `_find_similar_models` has at least three
named fields. -/
theorem simCandidates_spec {ms : List ModelInfo} {c : SimCandidate}
    (h : c ∈ simCandidates ms) : 3 ≤ c.fields.card := by
  simp only [simCandidates, List.mem_filterMap] at h
  obtain ⟨m, hm, he⟩ := h
  split at he
  · exact Option.noConfusion he
  · split at he
    · exact Option.noConfusion he
    · next h2 =>
        injection he with he2
        subst he2
        exact Nat.le_of_not_lt h2

/-- The `compared` set makes the produced findings pairwise distinct on
their unordered name pair, and none of them carries a key that was
already in `compared`. -/
theorem processSimPairs_keys :
    ∀ (l : List (SimCandidate × SimCandidate))
      (compared : List (String × String)),
      (∀ f ∈ processSimPairs l compared,
        pairKey f.model1 f.model2 ∉ compared) ∧
      ((processSimPairs l compared).map
        (fun f => pairKey f.model1 f.model2)).Nodup := by
  intro l
  induction l with
  | nil =>
    intro compared
    simp [processSimPairs]
  | cons p rest ih =>
    intro compared
    obtain ⟨a, b⟩ := p
    simp only [processSimPairs]
    by_cases hk : pairKey a.name b.name ∈ compared
    · rw [if_pos hk]
      exact ih compared
    · rw [if_neg hk]
      cases he : evalSimPair a b with
      | none =>
        have h := ih (pairKey a.name b.name :: compared)
        exact ⟨fun f hf hmem => h.1 f hf (by simp [hmem]), h.2⟩
      | some f0 =>
        have h := ih (pairKey a.name b.name :: compared)
        obtain ⟨hm1, hm2, -, -, -⟩ := evalSimPair_spec he
        constructor
        · intro f hf
          rcases List.mem_cons.mp hf with rfl | hf2
          · rw [hm1, hm2]
            exact hk
          · intro hmem
            exact h.1 f hf2 (by simp [hmem])
        · simp only [List.map_cons, List.nodup_cons]
          refine ⟨?_, h.2⟩
          rw [hm1, hm2]
          intro hcon
          obtain ⟨g, hg, hgeq⟩ := List.mem_map.mp hcon
          have hnc := h.1 g hg
          rw [hgeq] at hnc
          exact hnc (by simp)

/-- When the processed list contains a successfully evaluating pair
whose key is fresh and unique in the list, its finding is produced. -/
theorem processSimPairs_complete :
    ∀ (l : List (SimCandidate × SimCandidate))
      (compared : List (String × String)) (x y : SimCandidate)
      (f : SimFinding),
      (x, y) ∈ l → evalSimPair x y = some f →
      pairKey x.name y.name ∉ compared →
      (∀ p ∈ l, pairKey p.1.name p.2.name = pairKey x.name y.name →
        p = (x, y)) →
      f ∈ processSimPairs l compared := by
  intro l
  induction l with
  | nil =>
    intro compared x y f h
    simp at h
  | cons p rest ih =>
    intro compared x y f hmem heval hnc huniq
    obtain ⟨a, b⟩ := p
    simp only [processSimPairs]
    by_cases hxy : (a, b) = (x, y)
    · injection hxy with h1 h2
      subst h1
      subst h2
      rw [if_neg hnc]
      simp only [heval]
      exact List.mem_cons_self _ _
    · have hxyr : (x, y) ∈ rest := by
        rcases List.mem_cons.mp hmem with h | h
        · exact absurd h.symm hxy
        · exact h
      have hkne : pairKey a.name b.name ≠ pairKey x.name y.name := by
        intro hcon
        exact hxy (huniq (a, b) (by simp) hcon)
      have huniq2 : ∀ p ∈ rest,
          pairKey p.1.name p.2.name = pairKey x.name y.name →
          p = (x, y) := fun p hp => huniq p (by simp [hp])
      by_cases hk : pairKey a.name b.name ∈ compared
      · rw [if_pos hk]
        exact ih compared x y f hxyr heval hnc huniq2
      · rw [if_neg hk]
        have hnc2 : pairKey x.name y.name ∉
            pairKey a.name b.name :: compared := by
          intro hcon
          rcases List.mem_cons.mp hcon with h | h
          · exact hkne h.symm
          · exact hnc h
        cases he : evalSimPair a b with
        | some f0 =>
          simp only [he]
          exact List.mem_cons_of_mem _ (ih _ x y f hxyr heval hnc2 huniq2)
        | none =>
          simp only [he]
          exact ih _ x y f hxyr heval hnc2 huniq2

/-- C7: similar-entity detection compares only models with at least
three named fields (every reported pair stems from two candidates with
`3 ≤ card`); Jaccard similarity is symmetric; each unordered name pair
is reported at most once (the reported key list is duplicate-free);
every reported pair has similarity at least 0.7 with severity `info`
below 0.85 and `warning` from 0.85 on; and, when the candidate display
names are pairwise distinct (so that a pair of models is identified by
its two names), a pair of candidates is flagged if and only if its
similarity reaches 0.7. -/
theorem similar_models_properties (ms : List ModelInfo) :
    (∀ a b : Finset String, jaccard a b = jaccard b a) ∧
    ((findSimilarModels ms).map (fun f => pairKey f.model1 f.model2)).Nodup ∧
    (∀ f ∈ findSimilarModels ms,
      ∃ a ∈ simCandidates ms, ∃ b ∈ simCandidates ms,
        3 ≤ a.fields.card ∧ 3 ≤ b.fields.card ∧
        f.model1 = a.name ∧ f.model2 = b.name ∧
        f.similarity = jaccard a.fields b.fields ∧
        7 / 10 ≤ f.similarity ∧
        f.severity = (if f.similarity < 17 / 20 then "info" else "warning")) ∧
    (((simCandidates ms).map (fun c => c.name)).Nodup →
      ∀ a ∈ simCandidates ms, ∀ b ∈ simCandidates ms, a ≠ b →
        (7 / 10 ≤ jaccard a.fields b.fields ↔
          ∃ f ∈ findSimilarModels ms,
            ((f.model1 = a.name ∧ f.model2 = b.name) ∨
             (f.model1 = b.name ∧ f.model2 = a.name)))) := by
  refine ⟨jaccard_comm, ?_, ?_, ?_⟩
  · exact (processSimPairs_keys (pairsAfter (simCandidates ms)) []).2
  · intro f hf
    obtain ⟨p, hp, he⟩ := processSimPairs_sound _ _ f hf
    obtain ⟨pa, pb⟩ := p
    obtain ⟨ha, hb⟩ := pairsAfter_mem hp
    obtain ⟨hm1, hm2, hsim, hge, hsev⟩ := evalSimPair_spec he
    exact ⟨pa, ha, pb, hb, simCandidates_spec ha, simCandidates_spec hb,
           hm1, hm2, hsim, hge, hsev⟩
  · intro hn a ha b hb hne
    have hinj : ∀ p ∈ simCandidates ms, ∀ q ∈ simCandidates ms,
        p.name = q.name → p = q := by
      intro p hp q hq hpq
      exact List.inj_on_of_nodup_map hn hp hq hpq
    have hnodups : (simCandidates ms).Nodup := List.Nodup.of_map _ hn
    have hua : (a.fields ∪ b.fields).card ≠ 0 := by
      have h3 := simCandidates_spec ha
      have hsub : a.fields.card ≤ (a.fields ∪ b.fields).card :=
        Finset.card_le_card Finset.subset_union_left
      omega
    have key_uniq : ∀ (x y : SimCandidate),
        (x, y) ∈ pairsAfter (simCandidates ms) → x ≠ y →
        ∀ p ∈ pairsAfter (simCandidates ms),
          pairKey p.1.name p.2.name = pairKey x.name y.name →
          p = (x, y) := by
      intro x y hxy hxyne p hp hkeq
      obtain ⟨p1, p2⟩ := p
      obtain ⟨hx1, hx2⟩ := pairsAfter_mem hxy
      obtain ⟨hp1, hp2⟩ := pairsAfter_mem hp
      have hcomp : (p1.name = x.name ∧ p2.name = y.name) ∨
          (p1.name = y.name ∧ p2.name = x.name) := by
        rcases pairKey_cases p1.name p2.name with h1 | h1 <;>
          rcases pairKey_cases x.name y.name with h2 | h2 <;>
            rw [h1, h2] at hkeq
        · injection hkeq with e1 e2
          exact Or.inl ⟨e1, e2⟩
        · injection hkeq with e1 e2
          exact Or.inr ⟨e1, e2⟩
        · injection hkeq with e1 e2
          exact Or.inr ⟨e2, e1⟩
        · injection hkeq with e1 e2
          exact Or.inl ⟨e2, e1⟩
      rcases hcomp with ⟨e1, e2⟩ | ⟨e1, e2⟩
      · rw [hinj p1 hp1 x hx1 e1, hinj p2 hp2 y hx2 e2]
      · have ep1 : p1 = y := hinj p1 hp1 y hx2 e1
        have ep2 : p2 = x := hinj p2 hp2 x hx1 e2
        subst ep1
        subst ep2
        exact absurd hp (pairsAfter_not_symm hnodups hxy hxyne)
    constructor
    · intro hsim
      rcases pairsAfter_pair_or (simCandidates ms) a b ha hb hne with hmem | hmem
      · have he := evalSimPair_pos hua hsim
        exact ⟨_, processSimPairs_complete _ [] a b _ hmem he (by simp)
          (key_uniq a b hmem hne), Or.inl ⟨rfl, rfl⟩⟩
      · have hub : (b.fields ∪ a.fields).card ≠ 0 := by
          rw [Finset.union_comm]
          exact hua
        have hsimb : 7 / 10 ≤ jaccard b.fields a.fields := by
          rw [jaccard_comm]
          exact hsim
        have he := evalSimPair_pos hub hsimb
        exact ⟨_, processSimPairs_complete _ [] b a _ hmem he (by simp)
          (key_uniq b a hmem hne.symm), Or.inr ⟨rfl, rfl⟩⟩
    · rintro ⟨f, hf, hcase⟩
      obtain ⟨p, hp, he⟩ := processSimPairs_sound _ _ f hf
      obtain ⟨p1, p2⟩ := p
      obtain ⟨hp1, hp2⟩ := pairsAfter_mem hp
      obtain ⟨hm1, hm2, hsim, hge, -⟩ := evalSimPair_spec he
      rcases hcase with ⟨e1, e2⟩ | ⟨e1, e2⟩
      · have ea : p1 = a := hinj p1 hp1 a ha (by rw [← hm1]; exact e1)
        have eb : p2 = b := hinj p2 hp2 b hb (by rw [← hm2]; exact e2)
        subst ea
        subst eb
        rw [← hsim]
        exact hge
      · have ea : p1 = b := hinj p1 hp1 b hb (by rw [← hm1]; exact e1)
        have eb : p2 = a := hinj p2 hp2 a ha (by rw [← hm2]; exact e2)
        subst ea
        subst eb
        rw [jaccard_comm, ← hsim]
        exact hge

/-- C7 witness: among three concrete models (two sharing 3 of 4 field
names, one disjoint) the detector flags exactly the similar pair. -/
theorem similar_models_properties_witness :
    ∃ f ∈ findSimilarModels [c7A, c7B, c7C],
      ((f.model1 = "a" ∧ f.model2 = "b") ∨
       (f.model1 = "b" ∧ f.model2 = "a")) := by
  have h := similar_models_properties [c7A, c7B, c7C]
  refine (h.2.2.2 (by decide) ⟨"a", {"x", "y", "z", "w"}⟩ (by decide)
    ⟨"b", {"x", "y", "z"}⟩ (by decide) (by decide)).mp ?_
  show (7 : ℚ) / 10 ≤ jaccard {"x", "y", "z", "w"} {"x", "y", "z"}
  have h1 : ((({"x", "y", "z", "w"} : Finset String)) ∩
      {"x", "y", "z"}).card = 3 := by decide
  have h2 : ((({"x", "y", "z", "w"} : Finset String)) ∪
      {"x", "y", "z"}).card = 4 := by decide
  rw [jaccard, h1, h2]
  norm_num

end Insights
